import Mathlib

/-!
Verification development for the `genimi-t2i` repository, a pair of small
HTTP services that proxy Vertex AI Gemini generation calls:

* `src/app.py` — FastAPI service with `POST /generate` (text/JSON generation),
  embedded below as `generate_content`.
* `src/main.py` — Flask service with `POST /generate-image` (image generation),
  embedded below as `generate_image`.

The embedding is shallow: the handler bodies are translated line by line into
executable Lean definitions.  The remote Vertex AI backend, the PIL image
re-encoder and the JSON stdlib are external collaborators; the backend and the
re-encoder are parameters of the embedded handlers, while Python's
`json.loads` / `json.dumps` and `str.split` / `str.strip` / `base64.b64encode`
are re-implemented executably below.  Machine floats appear only in
`int(len(text) * 1.5)`; for these inputs (`3 * n ≤ 2^53`) IEEE double
arithmetic is exact, so the computation is embedded as exact natural
arithmetic `3 * n / 2`.
-/

/-! ## Python string helpers (`str.strip`, `in`, `str.split` at indices 0/1) -/

/-- Python's `str.strip()` whitespace set: the characters CPython's
`Py_UNICODE_ISSPACE` accepts (0x09–0x0D, 0x1C–0x1F, space, NEL, NBSP, Ogham
space mark, the U+2000–U+200A spaces, LS, PS, NNBSP, MMSP and ideographic
space). -/
def pythonWs (c : Char) : Bool :=
  (9 ≤ c.toNat && c.toNat ≤ 13) || (0x1c ≤ c.toNat && c.toNat ≤ 0x1f) ||
  c.toNat = 0x20 || c.toNat = 0x85 || c.toNat = 0xa0 || c.toNat = 0x1680 ||
  (0x2000 ≤ c.toNat && c.toNat ≤ 0x200a) || c.toNat = 0x2028 ||
  c.toNat = 0x2029 || c.toNat = 0x202f || c.toNat = 0x205f || c.toNat = 0x3000

/-- Python `s.strip()`: remove whitespace from both ends. -/
def pyStrip (s : List Char) : List Char :=
  ((s.dropWhile pythonWs).reverse.dropWhile pythonWs).reverse

/-- Python `sep in s` (substring containment, `sep` nonempty in all uses). -/
def containsSub (sep : List Char) : List Char → Bool
  | [] => sep.isEmpty
  | x :: xs => sep.isPrefixOf (x :: xs) || containsSub sep xs

/-- The chunk of `s` before the first occurrence of `sep`;  all of `s` when
`sep` does not occur.  This is `s.split(sep)[0]` in Python. -/
def firstChunk (sep : List Char) : List Char → List Char
  | [] => []
  | x :: xs => if sep.isPrefixOf (x :: xs) then [] else x :: firstChunk sep xs

/-- The remainder of `s` after the first occurrence of `sep`, when `sep`
occurs.  Python's `s.split(sep)[1]` equals `firstChunk sep` of this. -/
def afterMatch (sep : List Char) : List Char → Option (List Char)
  | [] => none
  | x :: xs =>
    if sep.isPrefixOf (x :: xs) then some ((x :: xs).drop sep.length)
    else afterMatch sep xs

/-! ## JSON values, `json.loads` and `json.dumps`

`Json` models the values produced by Python's `json` module.  Numbers are
stored as `mantissa × 10 ^ exp10` (integer literals have `exp10 = 0`), which
represents every numeric literal the grammar accepts without modelling IEEE
floats; the non-finite floats `json.loads` accepts by default (`NaN`,
`Infinity`, `-Infinity`) get their own constructors.  Objects keep their
members in insertion order, a duplicated key updating the value at its first
position, as a Python dict does. -/

inductive Json where
  | null : Json
  | bool (b : Bool) : Json
  | num (mantissa : Int) (exp10 : Int) : Json
  | nan : Json
  | infinity (neg : Bool) : Json
  | str (s : String) : Json
  | arr (elems : List Json) : Json
  | obj (members : List (String × Json)) : Json

/-- Insertion into a Python dict: a duplicated key overwrites the value at
the key's original position, a new key is appended. -/
def dictInsert : List (String × Json) → String → Json → List (String × Json)
  | [], k, v => [(k, v)]
  | (k', v') :: rest, k, v =>
    if k' = k then (k', v) :: rest else (k', v') :: dictInsert rest k v

/-- JSON's own whitespace set (RFC 8259: space, tab, newline, return). -/
def jsonWsChar (c : Char) : Bool :=
  c = ' ' || c = '\t' || c = '\n' || c = '\r'

def skipWs (s : List Char) : List Char := s.dropWhile jsonWsChar

def hexVal (c : Char) : Option Nat :=
  if '0' ≤ c ∧ c ≤ '9' then some (c.toNat - 48)
  else if 'a' ≤ c ∧ c ≤ 'f' then some (c.toNat - 87)
  else if 'A' ≤ c ∧ c ≤ 'F' then some (c.toNat - 55)
  else none

def isDigitCh (c : Char) : Bool := '0' ≤ c && c ≤ '9'

def digitsToNat (ds : List Char) : Nat :=
  ds.foldl (fun n c => n * 10 + (c.toNat - 48)) 0

/-- Body of a JSON string, after the opening quote.  Returns the decoded
characters and the input after the closing quote.  As in Python's strict
mode, raw control characters are rejected.  Escaped surrogate pairs are not
decoded (no claim involves them). -/
def parseStringBody (fuel : Nat) (s : List Char) (acc : List Char) :
    Option (List Char × List Char) :=
  match fuel with
  | 0 => none
  | fuel + 1 =>
    match s with
    | [] => none
    | c :: rest =>
      if c = '"' then some (acc.reverse, rest)
      else if c = '\\' then
        match rest with
        | [] => none
        | e :: rest2 =>
          if e = '"' then parseStringBody fuel rest2 ('"' :: acc)
          else if e = '\\' then parseStringBody fuel rest2 ('\\' :: acc)
          else if e = '/' then parseStringBody fuel rest2 ('/' :: acc)
          else if e = 'b' then parseStringBody fuel rest2 (Char.ofNat 8 :: acc)
          else if e = 'f' then parseStringBody fuel rest2 (Char.ofNat 12 :: acc)
          else if e = 'n' then parseStringBody fuel rest2 ('\n' :: acc)
          else if e = 'r' then parseStringBody fuel rest2 ('\r' :: acc)
          else if e = 't' then parseStringBody fuel rest2 ('\t' :: acc)
          else if e = 'u' then
            match rest2 with
            | h1 :: h2 :: h3 :: h4 :: rest3 =>
              match hexVal h1, hexVal h2, hexVal h3, hexVal h4 with
              | some a, some b, some c2, some d =>
                let n := ((a * 16 + b) * 16 + c2) * 16 + d
                if 0xD800 ≤ n ∧ n ≤ 0xDFFF then none
                else parseStringBody fuel rest3 (Char.ofNat n :: acc)
              | _, _, _, _ => none
            | _ => none
          else none
      else if c.toNat < 32 then none
      else parseStringBody fuel rest (c :: acc)

/-- Exponent and assembly step of JSON number parsing.  `ip` is the integer
part, `fr` the fraction digits. -/
def parseExpPart (neg : Bool) (ip : Nat) (fr : List Char) (s : List Char) :
    Option (Json × List Char) :=
  let mantNat : Nat := ip * 10 ^ fr.length + digitsToNat fr
  let mant : Int := if neg then -(mantNat : Int) else (mantNat : Int)
  match s with
  | e :: rest =>
    if e = 'e' ∨ e = 'E' then
      let signArgs : Bool × List Char :=
        match rest with
        | '-' :: r => (true, r)
        | '+' :: r => (false, r)
        | _ => (false, rest)
      let eds := signArgs.2.takeWhile isDigitCh
      let r2 := signArgs.2.dropWhile isDigitCh
      if eds = [] then none
      else
        let ev : Int := if signArgs.1 then -(digitsToNat eds : Int) else (digitsToNat eds : Int)
        some (.num mant (ev - (fr.length : Int)), r2)
    else some (.num mant (-(fr.length : Int)), s)
  | [] => some (.num mant (-(fr.length : Int)), [])

/-- JSON number, per the RFC 8259 grammar (optional minus, no leading zeros,
optional fraction and exponent). -/
def parseNumberCore (s : List Char) : Option (Json × List Char) :=
  let signArgs : Bool × List Char :=
    match s with
    | '-' :: r => (true, r)
    | _ => (false, s)
  let intDs := signArgs.2.takeWhile isDigitCh
  let r1 := signArgs.2.dropWhile isDigitCh
  if intDs = [] then none
  else if 1 < intDs.length ∧ intDs.headD '0' = '0' then none
  else
    match r1 with
    | '.' :: r2 =>
      let fr := r2.takeWhile isDigitCh
      let r3 := r2.dropWhile isDigitCh
      if fr = [] then none
      else parseExpPart signArgs.1 (digitsToNat intDs) fr r3
    | _ => parseExpPart signArgs.1 (digitsToNat intDs) [] r1

mutual

/-- Recursive-descent JSON value, mirroring `json.loads`.  `fuel` strictly
decreases on every nested call; `jsonLoads` supplies enough for any input. -/
def parseValue (fuel : Nat) (s : List Char) : Option (Json × List Char) :=
  match fuel with
  | 0 => none
  | fuel + 1 =>
    match skipWs s with
    | [] => none
    | c :: rest =>
      if c = 'n' then
        if ("ull".toList).isPrefixOf rest then some (.null, rest.drop 3) else none
      else if c = 't' then
        if ("rue".toList).isPrefixOf rest then some (.bool true, rest.drop 3) else none
      else if c = 'f' then
        if ("alse".toList).isPrefixOf rest then some (.bool false, rest.drop 4) else none
      else if c = '"' then
        match parseStringBody (rest.length + 1) rest [] with
        | some (cs, r) => some (.str (String.mk cs), r)
        | none => none
      else if c = '[' then
        match skipWs rest with
        | ']' :: r2 => some (.arr [], r2)
        | r1 => parseElems fuel r1 []
      else if c = '{' then
        match skipWs rest with
        | '}' :: r2 => some (.obj [], r2)
        | r1 => parseMembers fuel r1 []
      else if c = 'N' then
        if ("aN".toList).isPrefixOf rest then some (.nan, rest.drop 2) else none
      else if c = 'I' then
        if ("nfinity".toList).isPrefixOf rest then some (.infinity false, rest.drop 7)
        else none
      else if c = '-' then
        match rest with
        | 'I' :: r2 =>
          if ("nfinity".toList).isPrefixOf r2 then some (.infinity true, r2.drop 7)
          else none
        | _ => parseNumberCore (c :: rest)
      else if isDigitCh c then parseNumberCore (c :: rest)
      else none

/-- Array elements after `[` (first element pending). -/
def parseElems (fuel : Nat) (s : List Char) (acc : List Json) :
    Option (Json × List Char) :=
  match fuel with
  | 0 => none
  | fuel + 1 =>
    match parseValue fuel s with
    | some (v, r) =>
      match skipWs r with
      | ',' :: r2 => parseElems fuel r2 (v :: acc)
      | ']' :: r2 => some (.arr (v :: acc).reverse, r2)
      | _ => none
    | none => none

/-- Object members after `{` (first member pending). -/
def parseMembers (fuel : Nat) (s : List Char) (acc : List (String × Json)) :
    Option (Json × List Char) :=
  match fuel with
  | 0 => none
  | fuel + 1 =>
    match skipWs s with
    | '"' :: r =>
      match parseStringBody (r.length + 1) r [] with
      | some (key, r1) =>
        match skipWs r1 with
        | ':' :: r2 =>
          match parseValue fuel r2 with
          | some (v, r3) =>
            match skipWs r3 with
            | ',' :: r4 => parseMembers fuel r4 (dictInsert acc (String.mk key) v)
            | '}' :: r4 => some (.obj (dictInsert acc (String.mk key) v), r4)
            | _ => none
          | none => none
        | _ => none
      | none => none
    | _ => none

end

/-- Python `json.loads`: parse a complete JSON document, allowing surrounding
whitespace and rejecting trailing garbage.  `none` models `JSONDecodeError`. -/
def jsonLoads (s : List Char) : Option Json :=
  match parseValue (2 * s.length + 16) s with
  | some (v, r) => if skipWs r = [] then some v else none
  | none => none

/-- Hexadecimal rendering used by `jsonDumps` for `ensure_ascii` escapes. -/
def hex4 (n : Nat) : String :=
  let d := fun (k : Nat) =>
    if k < 10 then Char.ofNat (48 + k) else Char.ofNat (87 + k)
  String.mk [d (n / 4096 % 16), d (n / 256 % 16), d (n / 16 % 16), d (n % 16)]

/-- One character of a dumped JSON string, with `ensure_ascii=True` escaping
as in Python's default `json.dumps` (codepoints above 0xFFFF elided; the
dumped schema only feeds prompt text, no claim computes with it). -/
def dumpChar (c : Char) : String :=
  if c = '"' then "\\\""
  else if c = '\\' then "\\\\"
  else if c = '\n' then "\\n"
  else if c = '\t' then "\\t"
  else if c = '\r' then "\\r"
  else if c.toNat = 8 then "\\b"
  else if c.toNat = 12 then "\\f"
  else if c.toNat < 32 ∨ 126 < c.toNat then "\\u" ++ hex4 (c.toNat % 65536)
  else String.mk [c]

def dumpString (s : String) : String :=
  "\"" ++ String.join (s.toList.map dumpChar) ++ "\""

/-- Number rendering for `jsonDumps`; integer literals print as in Python,
scaled literals keep their mantissa/exponent form. -/
def dumpNum (mantissa exp10 : Int) : String :=
  if exp10 = 0 then toString mantissa
  else toString mantissa ++ "e" ++ toString exp10

mutual

/-- Python `json.dumps` with its default separators, used only to inline the
request's `json_schema` into the JSON-mode system message. -/
def jsonDumps : Json → String
  | .null => "null"
  | .bool true => "true"
  | .bool false => "false"
  | .num m e => dumpNum m e
  | .nan => "NaN"
  | .infinity false => "Infinity"
  | .infinity true => "-Infinity"
  | .str s => dumpString s
  | .arr xs => "[" ++ String.intercalate ", " (jsonDumpsList xs) ++ "]"
  | .obj kvs => "\x7b" ++ String.intercalate ", " (jsonDumpsKVs kvs) ++ "\x7d"

def jsonDumpsList : List Json → List String
  | [] => []
  | j :: js => jsonDumps j :: jsonDumpsList js

def jsonDumpsKVs : List (String × Json) → List String
  | [] => []
  | (k, v) :: kvs => (dumpString k ++ ": " ++ jsonDumps v) :: jsonDumpsKVs kvs

end

/-! ## `src/app.py` — the `/generate` endpoint (`generate_content`) -/

/-- Request model (`GeminiRequest` in `src/app.py`), with the same pydantic
defaults.  `temperature` is carried as an exact rational; it only flows
unchanged into the backend call. -/
structure GeminiRequest where
  prompt : String
  model : Option String := none
  response_modalities : Option (List String) := some ["TEXT", "IMAGE"]
  temperature : Rat := 7 / 10
  max_output_tokens : Int := 2048
  json_mode : Bool := false
  json_schema : Option Json := none
  seed : Option Int := none

/-- One value of the `token_info` dict built at lines 90–119 of `src/app.py`:
the source stores both integer token counts and explanatory Japanese
sentences (the `note` of the estimated tier, the `error`/`note` of the
failure tier) in the same dict. -/
inductive TokenValue where
  | int (n : Nat) : TokenValue
  | str (s : String) : TokenValue
  deriving DecidableEq

/-- The pydantic validation `GeminiResponse(tokens=...)` performs against the
declared `Optional[Dict[str, int]]`: every value must be an integer, else the
constructor raises `ValidationError`.  (pydantic v1 would additionally coerce
a digit string; no string the source ever stores in this dict is one.) -/
def validateTokens : List (String × TokenValue) → Option (List (String × Nat))
  | [] => some []
  | (k, .int n) :: rest => (validateTokens rest).map (fun r => (k, n) :: r)
  | (_, .str _) :: _ => none

/-- Stand-in for `str(e)` of the pydantic `ValidationError` raised when the
tokens dict fails the `Dict[str, int]` check: the library's message text is
opaque to this embedding, so a fixed string takes its place. -/
def validationErrText : String :=
  "1 validation error for GeminiResponse: tokens value is not a valid integer"

/-- Response model (`GeminiResponse` in `src/app.py`).  `tokens` is the
validated `Optional[Dict[str, int]]`; `seed` has pydantic default `None` and
the handler never assigns it. -/
structure GeminiResponse where
  text : String
  model : String
  tokens : Option (List (String × Nat)) := none
  json_data : Option Json := none
  seed : Option Int := none

/-- The `usage_metadata` attribute of a Vertex AI generation response. -/
structure UsageMetadata where
  prompt_token_count : Nat
  candidates_token_count : Nat
  total_token_count : Nat

/-- Backend generation result as consumed by `generate_content`: the `text`
property and the optional usage metadata. -/
structure RawResponse where
  text : String
  usage_metadata : Option UsageMetadata

/-- The generation_config dict passed to the backend. -/
structure GenerationConfig where
  response_modalities : Option (List String)
  temperature : Rat
  max_output_tokens : Int

/-- The opaque remote call `GenerativeModel(model_name).generate_content`:
model name and contents list in, raw result or exception text out. -/
abbrev Backend := String → List String → GenerationConfig → Except String RawResponse

/-- Line 44 of `src/app.py`: `request.model if request.model else
DEFAULT_GEMINI_MODEL`.  Python truthiness makes both `None` and the empty
string fall back to the default. -/
def resolvedModel (default_model : String) (m : Option String) : String :=
  match m with
  | some s => if s = "" then default_model else s
  | none => default_model

/-- Lines 56–67 of `src/app.py`: the JSON-mode system message, with the exact
triple-quoted literals (16-space indentation included). -/
def systemMessage (schema : Option Json) : String :=
  match schema with
  | some sch =>
    "\n                You must respond with a valid JSON object that adheres to the following schema:\n                " ++
    jsonDumps sch ++
    "\n                \n                Do not include any explanations, only provide a RFC8259 compliant JSON response \n                following the JSON schema above without deviation.\n                "
  | none =>
    "\n                You must respond with a valid JSON object. \n                Do not include any explanations, only provide a RFC8259 compliant JSON response.\n                "

/-- Lines 50–75 of `src/app.py`: the contents list sent to the backend. -/
def buildContents (req : GeminiRequest) : List String :=
  if req.json_mode then [systemMessage req.json_schema, req.prompt]
  else [req.prompt]

/-- The note string attached to the estimated token tier. -/
def estNote : String := "正確なトークン数はAPIから提供されていないため、概算値です"

/-- Lines 90–119 of `src/app.py`: the `token_info` dict.  With usage metadata
it holds the backend's three counts under un-suffixed keys; without it, the
character-count estimates under `_estimated` keys plus the string `note` —
`int(x * 1.5)` is `3 * x / 2` (exact in IEEE doubles for these sizes), and
the total is `int(1.5*P + 1.5*O)` computed on the unrounded floats, not the
sum of the two reported integers.  The `except` branch of the computation
(an `error`/`note` dict of two strings) is unreachable here because no
modelled step of the computation can raise. -/
def tokenInfoDict (contents : List String) (response : RawResponse) :
    List (String × TokenValue) :=
  match response.usage_metadata with
  | some um =>
    [("input_tokens", .int um.prompt_token_count),
     ("output_tokens", .int um.candidates_token_count),
     ("total_tokens", .int um.total_token_count)]
  | none =>
    let input_text := String.intercalate " " contents
    [("input_tokens_estimated", .int (3 * input_text.length / 2)),
     ("output_tokens_estimated", .int (3 * response.text.length / 2)),
     ("total_tokens_estimated", .int (3 * (input_text.length + response.text.length) / 2)),
     ("note", .str estNote)]

/-- Lines 129–142 of `src/app.py`: pick the substring handed to `json.loads`.
`json_text.split("```json")[1].split("```")[0].strip()` when a json fence
marker occurs, else the same with plain ``` fences, else the raw text.
`split(sep)[1]` is the chunk between the first and second occurrence of
`sep`, i.e. `firstChunk sep` of the text after the first occurrence; the
guard makes the index-1 access safe. -/
def extractJsonText (t : List Char) : List Char :=
  if containsSub ("```json".toList) t then
    match afterMatch ("```json".toList) t with
    | some rest => pyStrip (firstChunk ("```".toList) (firstChunk ("```json".toList) rest))
    | none => t
  else if containsSub ("```".toList) t then
    match afterMatch ("```".toList) t with
    | some rest => pyStrip (firstChunk ("```".toList) (firstChunk ("```".toList) rest))
    | none => t
  else t

/-- Lines 41–146 of `src/app.py`: the `/generate` handler.  An `Except.error`
is the `HTTPException(status_code=500, detail=...)` of the outer `except`:
it fires when the backend call fails, and also when the
`GeminiResponse(tokens=token_info)` construction at line 122 raises
`ValidationError` — which it does for the whole estimated tier, whose `note`
string fails the `Dict[str, int]` value check, so every request whose
backend result lacks usage metadata ends in HTTP 500 and no response. -/
def generate_content (default_model : String) (backend : Backend)
    (req : GeminiRequest) : Except (Nat × String) GeminiResponse :=
  let model_name := resolvedModel default_model req.model
  let contents := buildContents req
  let generation_config : GenerationConfig :=
    { response_modalities := req.response_modalities
      temperature := req.temperature
      max_output_tokens := req.max_output_tokens }
  match backend model_name contents generation_config with
  | .error e => .error (500, "生成エラー: " ++ e)
  | .ok response =>
    let token_info := tokenInfoDict contents response
    match validateTokens token_info with
    | none => .error (500, "生成エラー: " ++ validationErrText)
    | some validated =>
      let result : GeminiResponse :=
        { text := response.text, model := model_name, tokens := some validated }
      if req.json_mode then
        match jsonLoads (extractJsonText response.text.toList) with
        | some j => .ok { result with json_data := some j }
        | none => .ok result
      else .ok result

/-- A backend returning a fixed raw result: since `generate_content` performs
exactly one backend call, every reachable behaviour is captured by
quantifying over the returned `raw`. -/
def mkBackend (raw : RawResponse) : Backend := fun _ _ _ => .ok raw

/-- A backend echoing the model name it was called with (and reporting the
given usage metadata, so that the response survives token validation), used
to observe which model identifier reaches the backend. -/
def echoBackend (um : UsageMetadata) : Backend :=
  fun mn _ _ => .ok { text := mn, usage_metadata := some um }

/-- Response of `generate_content` against a fixed-output backend: `some`
the returned body on HTTP 200, `none` when the handler ends in HTTP 500. -/
def genResp (default_model : String) (raw : RawResponse) (req : GeminiRequest) :
    Option GeminiResponse :=
  (generate_content default_model (mkBackend raw) req).toOption

/-! ## `src/main.py` — the `/generate-image` endpoint (`generate_image`) -/

/-- Standard base64 alphabet. -/
def b64Alphabet : List Char :=
  "ABCDEFGHIJKLMNOPQRSTUVWXYZabcdefghijklmnopqrstuvwxyz0123456789+/".toList

def b64Char (n : Nat) : Char := b64Alphabet.getD n 'A'

/-- Core of `base64.b64encode` over bytes (as naturals below 256). -/
def b64encodeCore : List Nat → List Char
  | [] => []
  | [a] => [b64Char (a / 4), b64Char (a % 4 * 16), '=', '=']
  | [a, b] => [b64Char (a / 4), b64Char (a % 4 * 16 + b / 16), b64Char (b % 16 * 4), '=']
  | a :: b :: c :: rest =>
    b64Char (a / 4) :: b64Char (a % 4 * 16 + b / 16) ::
    b64Char (b % 16 * 4 + c / 64) :: b64Char (c % 64) :: b64encodeCore rest

/-- Python `base64.b64encode(...).decode()`. -/
def b64encode (bs : List Nat) : String := String.mk (b64encodeCore bs)

/-- One part of a generation candidate as consumed by the image loop.  Only
`inline_data` is inspected by the handler; `none` models an absent or falsy
(`None`/empty) `inline_data` attribute, `some bytes` its binary payload. -/
structure ImagePart where
  inline_data : Option (List Nat)

structure ImageContent where
  parts : List ImagePart

structure ImageCandidate where
  content : ImageContent

/-- Backend result consumed by `generate_image`: optional `text` attribute and
the candidates list. -/
structure ImageRawResponse where
  text : Option String
  candidates : List ImageCandidate

/-- Success body `result` of the image handler (`{"success": True}` enriched
with optional `text` and `image` keys). -/
structure ImageOkBody where
  success : Bool
  text : Option String
  image : Option String

/-- HTTP outcome of the image handler: 200 with the success body, 400 with an
error body, or 500 with an error body. -/
inductive ImageResult where
  | ok (body : ImageOkBody)
  | clientError (msg : String)
  | serverError (msg : String)

/-- Stand-in for `str(img_error)`: the text of the exception raised by
`PIL.Image.open`/`save` is opaque to this embedding, so the re-encoder
parameter reports failure as `none` and this fixed string takes the place of
the library's message. -/
def pilErrorText : String := "cannot identify image file"

/-- Lines 72–86 of `src/main.py`: the image loop.  Walks the parts in order;
each truthy `inline_data` is decoded and re-encoded (`reencodePng`, `none`
modelling a raised exception) and overwrites `result["image"]`.  The first
failure aborts the loop with the wrapped error message. -/
def processParts (reencodePng : List Nat → Option (List Nat)) :
    List ImagePart → Option String → Except String (Option String)
  | [], acc => .ok acc
  | p :: ps, acc =>
    match p.inline_data with
    | none => processParts reencodePng ps acc
    | some bytes =>
      match reencodePng bytes with
      | none => .error pilErrorText
      | some png => processParts reencodePng ps (some (b64encode png))

/-- Request body of `/generate-image` as far as the handler reads it:
`prompt` is `some` when the key is present. -/
structure ImageRequestBody where
  prompt : Option String

/-- Lines 31–92 of `src/main.py`: the `/generate-image` handler.  The returned
`Bool` is a call-count observation on the backend: `true` iff the
`model.generate_content` line was reached.  `data = none` models a missing or
falsy JSON body.  `candidates[0]` on an empty candidates list raises inside
the image `try` and surfaces as the 500 wrapper, like any image-processing
failure. -/
def generate_image (project_id : Option String)
    (backend : String → Except String ImageRawResponse)
    (reencodePng : List Nat → Option (List Nat))
    (data : Option ImageRequestBody) : ImageResult × Bool :=
  match project_id with
  | none => (.serverError "PROJECT_ID環境変数が設定されていません", false)
  | some _ =>
    match data with
    | none => (.clientError "プロンプトが必要です", false)
    | some d =>
      match d.prompt with
      | none => (.clientError "プロンプトが必要です", false)
      | some prompt =>
        match backend prompt with
        | .error e => (.serverError ("Gemini API呼び出しエラー: " ++ e), true)
        | .ok response =>
          match response.candidates with
          | [] => (.serverError ("画像処理エラー: " ++ "list index out of range"), true)
          | cand :: _ =>
            match processParts reencodePng cand.content.parts none with
            | .error msg => (.serverError ("画像処理エラー: " ++ msg), true)
            | .ok imageField =>
              (.ok { success := true, text := response.text, image := imageField }, true)

/-! ## Scanning lemmas for the fenced-block extraction -/

theorem containsSub_of_infix {sep s : List Char} (h : sep <:+: s) :
    containsSub sep s = true := by
  induction s with
  | nil =>
    rw [List.infix_nil] at h
    simp [containsSub, h]
  | cons x xs ih =>
    rcases List.infix_cons_iff.mp h with hp | hi
    · simp [containsSub, hp]
    · simp [containsSub, ih hi]

theorem firstChunk_pfx (sep s : List Char) : firstChunk sep s <+: s := by
  induction s with
  | nil => exact List.prefix_refl _
  | cons x xs ih =>
    by_cases hx : sep.isPrefixOf (x :: xs) = true
    · simp [firstChunk, hx]
    · simp only [firstChunk, hx, if_false, Bool.false_eq_true]
      exact List.cons_prefix_cons.mpr ⟨rfl, ih⟩

/-- A match of `sep` strictly before the seam of `a ++ sep ++ r` (with `a`
nonempty) lies inside `(a ++ sep).dropLast`. -/
theorem not_prefix_seam {sep a r : List Char} (ha : a ≠ [])
    (h : ¬ sep <:+: (a ++ sep).dropLast) : ¬ sep <+: a ++ sep ++ r := by
  intro hp
  apply h
  apply List.IsPrefix.isInfix
  apply List.prefix_of_prefix_length_le hp
  · exact List.IsPrefix.trans ( List.dropLast_prefix (a ++ sep)) (List.prefix_append _ _)
  · have h1 : 1 ≤ a.length := by
      cases a with
      | nil => exact absurd rfl ha
      | cons y ys => simp
    simp only [List.length_dropLast, List.length_append]
    omega

theorem not_isPrefixOf_seam {sep a r : List Char} (ha : a ≠ [])
    (h : ¬ sep <:+: (a ++ sep).dropLast) :
    sep.isPrefixOf (a ++ sep ++ r) = false := by
  rw [← Bool.not_eq_true]
  intro hb
  exact not_prefix_seam ha h ((List.isPrefixOf_iff_prefix).mp hb)

theorem seam_weaken {sep : List Char} {x : Char} {xs : List Char} (hsep : sep ≠ [])
    (h : ¬ sep <:+: ((x :: xs) ++ sep).dropLast) :
    ¬ sep <:+: (xs ++ sep).dropLast := by
  intro hi
  apply h
  have hne : xs ++ sep ≠ [] := by simp [hsep]
  rw [List.cons_append, List.dropLast_cons_of_ne_nil hne]
  exact List.infix_cons hi

theorem afterMatch_seam {sep a r : List Char} (hsep : sep ≠ [])
    (h : ¬ sep <:+: (a ++ sep).dropLast) :
    afterMatch sep (a ++ sep ++ r) = some r := by
  induction a with
  | nil =>
    cases sep with
    | nil => exact absurd rfl hsep
    | cons c cs =>
      have h1 : (c :: cs).isPrefixOf ((c :: cs) ++ r) = true :=
        (List.isPrefixOf_iff_prefix).mpr (List.prefix_append (c :: cs) r)
      show afterMatch (c :: cs) ((c :: cs) ++ r) = some r
      rw [List.cons_append, afterMatch, ← List.cons_append, if_pos h1]
      simp [List.drop_left']
  | cons x xs ih =>
    show afterMatch sep ((x :: xs) ++ sep ++ r) = some r
    rw [List.cons_append, List.cons_append, afterMatch,
      ← List.cons_append, ← List.cons_append,
      if_neg (by simpa using not_prefix_seam (List.cons_ne_nil x xs) h)]
    exact ih (seam_weaken hsep h)

theorem firstChunk_seam {sep a r : List Char} (hsep : sep ≠ [])
    (h : ¬ sep <:+: (a ++ sep).dropLast) :
    firstChunk sep (a ++ sep ++ r) = a := by
  induction a with
  | nil =>
    cases sep with
    | nil => exact absurd rfl hsep
    | cons c cs =>
      have h1 : (c :: cs).isPrefixOf ((c :: cs) ++ r) = true :=
        (List.isPrefixOf_iff_prefix).mpr (List.prefix_append (c :: cs) r)
      show firstChunk (c :: cs) ((c :: cs) ++ r) = []
      rw [List.cons_append, firstChunk, ← List.cons_append, if_pos h1]
  | cons x xs ih =>
    show firstChunk sep ((x :: xs) ++ sep ++ r) = x :: xs
    rw [List.cons_append, List.cons_append, firstChunk,
      ← List.cons_append, ← List.cons_append,
      if_neg (by simpa using not_prefix_seam (List.cons_ne_nil x xs) h)]
    rw [ih (seam_weaken hsep h)]

theorem firstChunk_of_not_infix {sep s : List Char} (h : ¬ sep <:+: s) :
    firstChunk sep s = s := by
  induction s with
  | nil => rfl
  | cons x xs ih =>
    have h1 : sep.isPrefixOf (x :: xs) = false := by
      rw [← Bool.not_eq_true]
      intro hb
      exact h (List.IsPrefix.isInfix ((List.isPrefixOf_iff_prefix).mp hb))
    rw [firstChunk, if_neg (by simp [h1])]
    rw [ih fun hi => h (List.infix_cons hi)]


theorem sep2_pfx_sep1 : ("```".toList) <+: ("```json".toList) :=
  ⟨"json".toList, rfl⟩

/-- The scan of the chained splits recovers exactly the content `b` of the
first fence, provided `b` encloses no premature triple backtick (including at
its own right edge) and the text after the closing fence does not begin with
a backtick. -/
theorem fence_chunk (b c : List Char)
    (h₂ : ¬ ("```".toList) <:+: (b ++ "```".toList).dropLast)
    (hc : ∀ x, c.head? = some x → x ≠ '`') :
    firstChunk ("```".toList)
      (firstChunk ("```json".toList) (b ++ "```".toList ++ c)) = b := by
  have e3 : "```".toList = ['`', '`', '`'] := rfl
  have e7 : "```json".toList = ['`', '`', '`', 'j', 's', 'o', 'n'] := rfl
  rw [e3, e7] at *
  clear e3 e7
  induction b with
  | nil =>
    cases c with
    | nil => decide
    | cons y ys =>
      have hy : ('`' == y) = false := by
        have hy0 := hc y rfl
        simp only [beq_eq_false_iff_ne, ne_eq]
        exact fun hh => hy0 hh.symm
      cases hA : (['`', '`', '`', 'j', 's', 'o', 'n']).isPrefixOf ('`' :: '`' :: '`' :: y :: ys) with
      | true =>
        show firstChunk ['`', '`', '`']
            (firstChunk ['`', '`', '`', 'j', 's', 'o', 'n'] ('`' :: ('`' :: '`' :: y :: ys))) = []
        simp [firstChunk, hA]
      | false =>
        show firstChunk ['`', '`', '`']
            (firstChunk ['`', '`', '`', 'j', 's', 'o', 'n'] ('`' :: ('`' :: '`' :: y :: ys))) = []
        simp at hA
        have hA2 : ¬ ('j' = y ∧ ['s', 'o', 'n'] <+: ys) := by
          intro hand
          have hb : (['j', 's', 'o', 'n'] : List Char).isPrefixOf (y :: ys) = true :=
            (List.isPrefixOf_iff_prefix).mpr (List.cons_prefix_cons.mpr hand)
          rw [hb] at hA
          cases hA
        simp [firstChunk, List.isPrefixOf, hA2, hy]
  | cons x xs ih =>
    have hnp2 : ¬ ['`', '`', '`'] <+: (x :: xs) ++ ['`', '`', '`'] ++ c :=
      not_prefix_seam (List.cons_ne_nil _ _) h₂
    have hnp1 : ¬ ['`', '`', '`', 'j', 's', 'o', 'n'] <+: (x :: xs) ++ ['`', '`', '`'] ++ c :=
      fun hp => hnp2 (List.IsPrefix.trans ⟨['j', 's', 'o', 'n'], rfl⟩ hp)
    have hF : (['`', '`', '`', 'j', 's', 'o', 'n']).isPrefixOf
        (x :: (xs ++ ['`', '`', '`'] ++ c)) = false := by
      rw [← Bool.not_eq_true]
      intro hb
      exact hnp1 ((List.isPrefixOf_iff_prefix).mp hb)
    have step1 : firstChunk ['`', '`', '`', 'j', 's', 'o', 'n']
        ((x :: xs) ++ ['`', '`', '`'] ++ c)
        = x :: firstChunk ['`', '`', '`', 'j', 's', 'o', 'n'] (xs ++ ['`', '`', '`'] ++ c) := by
      show firstChunk ['`', '`', '`', 'j', 's', 'o', 'n']
          (x :: (xs ++ ['`', '`', '`'] ++ c)) = _
      simp only [firstChunk, hF, Bool.false_eq_true, if_false]
    have hT : firstChunk ['`', '`', '`', 'j', 's', 'o', 'n'] (xs ++ ['`', '`', '`'] ++ c)
        <+: xs ++ ['`', '`', '`'] ++ c := firstChunk_pfx _ _
    have hF2 : (['`', '`', '`']).isPrefixOf
        (x :: firstChunk ['`', '`', '`', 'j', 's', 'o', 'n'] (xs ++ ['`', '`', '`'] ++ c)) = false := by
      rw [← Bool.not_eq_true]
      intro hb
      have hp := (List.isPrefixOf_iff_prefix).mp hb
      exact hnp2 (hp.trans (List.cons_prefix_cons.mpr ⟨rfl, hT⟩))
    rw [step1]
    simp only [firstChunk, hF2, Bool.false_eq_true, if_false]
    rw [ih (seam_weaken (by simp) h₂)]

/-- Behaviour of the code's JSON-substring selection on a text whose first
json fence is well formed: it selects exactly the stripped fence content. -/
theorem extract_decomp (a b c : List Char)
    (h₁ : ¬ ("```json".toList) <:+: (a ++ "```json".toList).dropLast)
    (h₂ : ¬ ("```".toList) <:+: (b ++ "```".toList).dropLast)
    (hc : ∀ x, c.head? = some x → x ≠ '`') :
    extractJsonText (a ++ "```json".toList ++ (b ++ "```".toList ++ c)) = pyStrip b := by
  have hsub : containsSub ("```json".toList)
      (a ++ "```json".toList ++ (b ++ "```".toList ++ c)) = true :=
    containsSub_of_infix (List.infix_append _ _ _)
  rw [extractJsonText, if_pos hsub, afterMatch_seam (by decide) h₁]
  show pyStrip (firstChunk ("```".toList)
    (firstChunk ("```json".toList) (b ++ "```".toList ++ c))) = pyStrip b
  rw [fence_chunk b c h₂ hc]

/-- Without usage metadata the `token_info` dict carries the string `note`,
so the `Dict[str, int]` validation at response construction fails: the
request ends in HTTP 500 and no response body exists. -/
theorem genResp_none (dm : String) (raw : RawResponse) (req : GeminiRequest)
    (h : raw.usage_metadata = none) :
    genResp dm raw req = none := by
  unfold genResp generate_content mkBackend
  simp [tokenInfoDict, h, validateTokens, Except.toOption]

/-- Master shape of the `/generate` response when the backend result carries
usage metadata — the only case whose token dict survives validation: text and
model are echoed, tokens hold the backend's counts verbatim under the
un-suffixed keys, `json_data` is filled only in JSON mode and only on parse
success, and `seed` is never assigned. -/
theorem genResp_some (dm : String) (raw : RawResponse) (req : GeminiRequest)
    (um : UsageMetadata) (h : raw.usage_metadata = some um) :
    genResp dm raw req = some
      { text := raw.text
        model := resolvedModel dm req.model
        tokens := some [("input_tokens", um.prompt_token_count),
          ("output_tokens", um.candidates_token_count),
          ("total_tokens", um.total_token_count)]
        json_data := if req.json_mode then jsonLoads (extractJsonText raw.text.toList)
          else none
        seed := none } := by
  unfold genResp generate_content mkBackend
  cases hjm : req.json_mode with
  | false =>
    simp [tokenInfoDict, h, hjm, validateTokens, Except.toOption, String.toList]
  | true =>
    cases hj : jsonLoads (extractJsonText raw.text.data) with
    | none =>
      simp [tokenInfoDict, h, hjm, hj, validateTokens, Except.toOption, String.toList]
    | some j =>
      simp [tokenInfoDict, h, hjm, hj, validateTokens, Except.toOption, String.toList]

/-- Shape of a successful `/generate` response for an arbitrary backend that
answers the one call the handler makes with a metadata-carrying result: the
text is the backend's text and the model field is the resolved model name —
the same name the backend was called with, as the hypothesis `hb` exhibits. -/
theorem generate_ok_shape (dm : String) (backend : Backend) (req : GeminiRequest)
    (raw : RawResponse) (um : UsageMetadata)
    (hb : backend (resolvedModel dm req.model) (buildContents req)
        { response_modalities := req.response_modalities
          temperature := req.temperature
          max_output_tokens := req.max_output_tokens } = .ok raw)
    (hum : raw.usage_metadata = some um) :
    (generate_content dm backend req).toOption.map (fun r => (r.text, r.model))
      = some (raw.text, resolvedModel dm req.model) := by
  cases hjm : req.json_mode with
  | false =>
    simp [generate_content, hb, hum, hjm, tokenInfoDict, validateTokens, Except.toOption]
  | true =>
    cases hj : jsonLoads (extractJsonText raw.text.data) with
    | none =>
      simp [generate_content, hb, hum, hjm, hj, tokenInfoDict, validateTokens,
        Except.toOption, String.toList]
    | some j =>
      simp [generate_content, hb, hum, hjm, hj, tokenInfoDict, validateTokens,
        Except.toOption, String.toList]

/-! ## Claims about `/generate` -/

set_option maxRecDepth 10000 in
/-- C1 (code bug).  The claim says that without backend usage metadata the
handler returns estimated token counts.  The handler does compute the
estimated dict — for prompt "a" (P = 1) and generated text "b" (O = 1):
input 1, output 1, total 3 = int(1.5·1 + 1.5·1), already different from the
sum 1 + 1 the claim predicts — but the dict's string `note` fails the
response model's `Dict[str, int]` validation, so every metadata-less request
ends in HTTP 500 and the estimated tier is never returned to any caller. -/
theorem c1_estimated_tier_unreturnable :
    (tokenInfoDict ["a"] { text := "b", usage_metadata := none }
      = [("input_tokens_estimated", .int 1), ("output_tokens_estimated", .int 1),
         ("total_tokens_estimated", .int 3), ("note", .str estNote)])
    ∧ (3 : Nat) ≠ 1 + 1
    ∧ (generate_content "m" (mkBackend { text := "b", usage_metadata := none })
        { prompt := "a" } = .error (500, "生成エラー: " ++ validationErrText))
    ∧ ∀ (dm text : String) (req : GeminiRequest),
        generate_content dm (mkBackend { text := text, usage_metadata := none }) req
          = .error (500, "生成エラー: " ++ validationErrText) := by
  refine ⟨rfl, by decide, rfl, fun dm text req => ?_⟩
  simp [generate_content, mkBackend, tokenInfoDict, validateTokens]

/-- C2 (code bug).  The response model declares a `seed` field documented as
the seed that was used, and the spec says the request seed is echoed, but the
handler never assigns it: for a request with seed 42 (and a metadata-carrying
backend result, so that a response exists at all) the response's seed is
`None`, and no response the handler ever returns carries a seed. -/
theorem c2_seed_never_echoed :
    ((genResp "gemini-2.0-flash-001" { text := "ok", usage_metadata := some ⟨3, 5, 8⟩ }
        { prompt := "p", seed := some 42 }).map (fun r => r.seed) = some none)
    ∧ ∀ (dm : String) (raw : RawResponse) (req : GeminiRequest),
        ((genResp dm raw req).map (fun r => r.seed)).getD none = none := by
  refine ⟨rfl, fun dm raw req => ?_⟩
  cases hum : raw.usage_metadata with
  | none => simp [genResp_none dm raw req hum]
  | some um => simp [genResp_some dm raw req um hum]

/-- C5.  When the backend result carries usage metadata, the validated token
dict reports the backend's prompt/completion/total counts verbatim under the
un-suffixed keys of the exact tier — disjoint from the `_estimated` + `note`
keys of the estimated tier, so exact and estimated counts are never
conflated. -/
theorem c5_exact_tokens (dm : String) (raw : RawResponse) (req : GeminiRequest)
    (um : UsageMetadata) (h : raw.usage_metadata = some um) :
    (genResp dm raw req).map (fun r => r.tokens) = some (some
      [("input_tokens", um.prompt_token_count),
       ("output_tokens", um.candidates_token_count),
       ("total_tokens", um.total_token_count)]) := by
  simp [genResp_some dm raw req um h]

/-- Witness for C5: backend metadata (10, 20, 30) is reported verbatim. -/
theorem c5_witness :
    (genResp "m" { text := "t", usage_metadata := some ⟨10, 20, 30⟩ }
      { prompt := "p" }).map (fun r => r.tokens)
      = some (some [("input_tokens", 10), ("output_tokens", 20), ("total_tokens", 30)]) :=
  c5_exact_tokens "m" { text := "t", usage_metadata := some ⟨10, 20, 30⟩ }
    { prompt := "p" } ⟨10, 20, 30⟩ rfl

/-- C9.  With `json_mode = false` the JSON-extraction branch is never
entered, so no response the handler returns carries `json_data`, whatever
the generated text contains.  (When the backend result lacks usage metadata
the request errors at token validation and there is no response at all; the
conclusion folds both outcomes.) -/
theorem c9_json_mode_off (dm : String) (raw : RawResponse) (req : GeminiRequest)
    (h : req.json_mode = false) :
    ((genResp dm raw req).map (fun r => r.json_data)).getD none = none := by
  cases hum : raw.usage_metadata with
  | none => simp [genResp_none dm raw req hum]
  | some um => simp [genResp_some dm raw req um hum, h]

/-- Witness for C9: json-mode off, generated text that is itself valid JSON,
metadata-carrying result: the response exists and carries no `json_data`. -/
theorem c9_witness :
    ((genResp "m" { text := "\x7b\"a\":1\x7d", usage_metadata := some ⟨1, 2, 3⟩ }
        { prompt := "p" }).map (fun r => r.json_data) = some none)
    ∧ (((genResp "m" { text := "\x7b\"a\":1\x7d", usage_metadata := some ⟨1, 2, 3⟩ }
        { prompt := "p" }).map (fun r => r.json_data)).getD none = none) :=
  ⟨rfl, c9_json_mode_off "m"
    { text := "\x7b\"a\":1\x7d", usage_metadata := some ⟨1, 2, 3⟩ }
    { prompt := "p" } rfl⟩

set_option maxRecDepth 10000 in
/-- C4 (counterexample).  The claim says a JSON-mode request with an
unparsable selection still succeeds with no error.  For generated text
"not json" with no usage metadata, the request does not succeed: response
construction raises `ValidationError` on the estimated token dict and the
handler returns HTTP 500 — an error, independent of the JSON parse. -/
theorem c4_counterexample :
    generate_content "m" (mkBackend { text := "not json", usage_metadata := none })
      { prompt := "p", json_mode := true }
      = .error (500, "生成エラー: " ++ validationErrText) := rfl

/-- C4 (amended).  For JSON-mode requests whose backend result carries usage
metadata (so that response construction validates), a selected substring that
fails to parse as JSON degrades gracefully: the request succeeds, `json_data`
is absent and `text` is the generated text unchanged (the `JSONDecodeError`
is swallowed). -/
theorem c4_parse_failure_degrades (dm : String) (raw : RawResponse)
    (req : GeminiRequest) (um : UsageMetadata)
    (hm : req.json_mode = true)
    (hum : raw.usage_metadata = some um)
    (hp : jsonLoads (extractJsonText raw.text.toList) = none) :
    (genResp dm raw req).map (fun r => (r.json_data.isNone, r.text))
      = some (true, raw.text) := by
  simp [genResp_some dm raw req um hum, hm, hp]
  exact hp

/-- Witness for C4 (amended): generated text "not json" parses as nothing,
yet the request succeeds with that text and no `json_data`. -/
theorem c4_witness :
    (genResp "m" { text := "not json", usage_metadata := some ⟨1, 2, 3⟩ }
      { prompt := "p", json_mode := true }).map
      (fun r => (r.json_data.isNone, r.text)) = some (true, "not json") :=
  c4_parse_failure_degrades "m" { text := "not json", usage_metadata := some ⟨1, 2, 3⟩ }
    { prompt := "p", json_mode := true } ⟨1, 2, 3⟩ rfl rfl rfl

/-- C10.  The model used for the backend call and echoed in the response is
`resolvedModel`: the request's model when it is a non-empty string, the
configured default when it is omitted or empty.  The second conjunct observes
through an echoing, metadata-carrying backend that the backend is called with
exactly that name.  (Responses exist only when the backend result carries
usage metadata; otherwise the request 500s after the call.) -/
theorem c10_model_selection (dm : String) (raw : RawResponse) (req : GeminiRequest)
    (um : UsageMetadata) (s : String)
    (hum : raw.usage_metadata = some um) (hs : s ≠ "") :
    ((genResp dm raw req).map (fun r => r.model) = some (resolvedModel dm req.model))
    ∧ ((generate_content dm (echoBackend um) req).toOption.map (fun r => (r.text, r.model))
        = some (resolvedModel dm req.model, resolvedModel dm req.model))
    ∧ resolvedModel dm none = dm
    ∧ resolvedModel dm (some "") = dm
    ∧ resolvedModel dm (some s) = s := by
  refine ⟨by simp [genResp_some dm raw req um hum], ?_, rfl, rfl,
    by simp [resolvedModel, hs]⟩
  exact generate_ok_shape dm (echoBackend um) req
    { text := resolvedModel dm req.model, usage_metadata := some um } um rfl rfl

/-- Witness for C10: a request naming model "custom" is generated with and
reports "custom"; omitted and empty model names resolve to the default. -/
theorem c10_witness :
    ((genResp "d" { text := "t", usage_metadata := some ⟨1, 2, 3⟩ }
        { prompt := "p", model := some "custom" }).map (fun r => r.model)
        = some "custom")
    ∧ ((generate_content "d" (echoBackend ⟨1, 2, 3⟩)
        { prompt := "p", model := some "custom" }).toOption.map
        (fun r => (r.text, r.model)) = some ("custom", "custom"))
    ∧ resolvedModel "d" none = "d"
    ∧ resolvedModel "d" (some "") = "d"
    ∧ resolvedModel "d" (some "custom") = "custom" :=
  c10_model_selection "d" { text := "t", usage_metadata := some ⟨1, 2, 3⟩ }
    { prompt := "p", model := some "custom" } ⟨1, 2, 3⟩ "custom" rfl (by decide)

/-- C3 (amended).  In JSON mode, for a backend result that carries usage
metadata (so that the response survives token validation) and whose text
decomposes around its first json-tagged fence — nothing before it scans as a
```json marker, the fence content `b` contains no premature triple backtick
and does not end in backticks, and the text after the closing fence does not
begin with a backtick — if the stripped content parses as JSON `j`, then
`json_data = j` and the text is returned unchanged. -/
theorem c3_first_fence_json (dm : String) (req : GeminiRequest) (raw : RawResponse)
    (um : UsageMetadata) (a b c : List Char) (j : Json)
    (hm : req.json_mode = true)
    (hum : raw.usage_metadata = some um)
    (ht : raw.text.toList = a ++ "```json".toList ++ (b ++ "```".toList ++ c))
    (h₁ : ¬ ("```json".toList) <:+: (a ++ "```json".toList).dropLast)
    (h₂ : ¬ ("```".toList) <:+: (b ++ "```".toList).dropLast)
    (hc : ∀ x, c.head? = some x → x ≠ '`')
    (hj : jsonLoads (pyStrip b) = some j) :
    (genResp dm raw req).map (fun r => (r.json_data, r.text))
      = some (some j, raw.text) := by
  have he : jsonLoads (extractJsonText raw.text.toList) = some j := by
    rw [ht, extract_decomp a b c h₁ h₂ hc, hj]
  simp [genResp_some dm raw req um hum, hm]
  exact he

set_option maxRecDepth 10000 in
/-- Witness for C3 (amended): generated text with a single well-formed fence
around an object (and a metadata-carrying result) yields exactly that
object. -/
theorem c3_witness :
    (genResp "m"
      { text := "```json\n\x7b\"a\":1\x7d\n```", usage_metadata := some ⟨1, 2, 3⟩ }
      { prompt := "p", json_mode := true }).map (fun r => (r.json_data, r.text))
      = some (some (Json.obj [("a", Json.num 1 0)]), "```json\n\x7b\"a\":1\x7d\n```") :=
  c3_first_fence_json "m" { prompt := "p", json_mode := true }
    { text := "```json\n\x7b\"a\":1\x7d\n```", usage_metadata := some ⟨1, 2, 3⟩ }
    ⟨1, 2, 3⟩ [] ("\n\x7b\"a\":1\x7d\n".toList) [] (Json.obj [("a", Json.num 1 0)])
    rfl rfl rfl (by decide) (by decide) (fun x h => nomatch h) rfl

set_option maxRecDepth 10000 in
/-- C3 (counterexample).  The unrestricted claim fails even where the request
succeeds: this generated text contains a json-tagged fence wrapping the valid
JSON object under the second marker, yet the code cuts at the first ```json
marker, selects "oops", parse fails, and the (successful, metadata-carrying)
response has no `json_data` at all. -/
theorem c3_counterexample :
    (containsSub ("```json\n\x7b\"a\":1\x7d\n```".toList)
      ("```json\noops\n```\n```json\n\x7b\"a\":1\x7d\n```".toList) = true)
    ∧ (jsonLoads ("\x7b\"a\":1\x7d".toList) = some (Json.obj [("a", Json.num 1 0)]))
    ∧ ((genResp "m"
        { text := "```json\noops\n```\n```json\n\x7b\"a\":1\x7d\n```",
          usage_metadata := some ⟨1, 2, 3⟩ }
        { prompt := "p", json_mode := true }).map (fun r => r.json_data.isNone)
        = some true) :=
  ⟨rfl, rfl, rfl⟩

/-! ## Lemmas and claims for `/generate-image` -/

theorem processParts_no_inline (re : List Nat → Option (List Nat))
    (ps : List ImagePart) (acc : Option String)
    (h : ps.filterMap (fun p => p.inline_data) = []) :
    processParts re ps acc = .ok acc := by
  induction ps with
  | nil => rfl
  | cons p ps ih =>
    cases hin : p.inline_data with
    | none =>
      simp only [List.filterMap_cons, hin] at h
      simp only [processParts, hin]
      exact ih h
    | some bytes =>
      simp [List.filterMap_cons, hin] at h

/-- When every inline part re-encodes successfully, the loop ends with the
base64 encoding of the re-encoding of the last inline part. -/
theorem processParts_last (re : List Nat → Option (List Nat))
    (parts : List ImagePart) (acc : Option String) (lastB png : List Nat)
    (hall : ∀ b ∈ parts.filterMap (fun p => p.inline_data), (re b).isSome)
    (hlast : (parts.filterMap (fun p => p.inline_data)).getLast? = some lastB)
    (hre : re lastB = some png) :
    processParts re parts acc = .ok (some (b64encode png)) := by
  induction parts generalizing acc with
  | nil => simp at hlast
  | cons p ps ih =>
    cases hin : p.inline_data with
    | none =>
      simp only [List.filterMap_cons, hin] at hall hlast
      simp only [processParts, hin]
      exact ih acc hall hlast
    | some bytes =>
      simp only [List.filterMap_cons, hin] at hall hlast
      have hsome : (re bytes).isSome := hall bytes (List.mem_cons_self _ _)
      obtain ⟨pngb, hpb⟩ := Option.isSome_iff_exists.mp hsome
      simp only [processParts, hin, hpb]
      cases hps : (ps.filterMap (fun p => p.inline_data)).getLast? with
      | none =>
        have hnil : ps.filterMap (fun p => p.inline_data) = [] :=
          List.getLast?_eq_none_iff.mp hps
        rw [hnil] at hlast
        simp at hlast
        subst hlast
        rw [processParts_no_inline re ps _ hnil]
        rw [hpb] at hre
        injection hre with hre2
        rw [hre2]
      | some lastB2 =>
        have htl : ps.filterMap (fun p => p.inline_data) ≠ [] := by
          intro hh
          rw [hh] at hps
          cases hps
        obtain ⟨y, ys, hys⟩ := List.exists_cons_of_ne_nil htl
        rw [hys] at hlast
        rw [List.getLast?_cons_cons] at hlast
        rw [← hys] at hlast
        exact ih _ (fun b hb => hall b (List.mem_cons_of_mem _ hb)) hlast
  
/-- Any inline part whose re-encoding fails aborts the loop with the wrapped
error. -/
theorem processParts_fail (re : List Nat → Option (List Nat))
    (parts : List ImagePart) (acc : Option String)
    (h : ∃ b ∈ parts.filterMap (fun p => p.inline_data), re b = none) :
    processParts re parts acc = .error pilErrorText := by
  induction parts generalizing acc with
  | nil => simp at h
  | cons p ps ih =>
    cases hin : p.inline_data with
    | none =>
      simp only [List.filterMap_cons, hin] at h
      simp only [processParts, hin]
      exact ih acc h
    | some bytes =>
      simp only [List.filterMap_cons, hin] at h
      cases hre : re bytes with
      | none => simp [processParts, hin, hre]
      | some png =>
        simp only [processParts, hin, hre]
        apply ih
        rcases h with ⟨b, hb, hbn⟩
        rcases List.mem_cons.mp hb with rfl | hmem
        · rw [hre] at hbn
          cases hbn
        · exact ⟨b, hmem, hbn⟩

/-- C6.  When the backend result holds two (or more) inline-image parts and
all of them re-encode, the success body has exactly one image field: the
base64 of the re-encoded bytes of the last inline part (later parts
overwrite earlier ones, no concatenation). -/
theorem c6_last_image_wins (pid : String)
    (backend : String → Except String ImageRawResponse)
    (re : List Nat → Option (List Nat))
    (d : ImageRequestBody) (prompt : String) (raw : ImageRawResponse)
    (cand : ImageCandidate) (rest : List ImageCandidate) (lastB png : List Nat)
    (hp : d.prompt = some prompt)
    (hb : backend prompt = .ok raw)
    (hcand : raw.candidates = cand :: rest)
    (hall : ∀ b ∈ cand.content.parts.filterMap (fun p => p.inline_data), (re b).isSome)
    (_hlen : 2 ≤ (cand.content.parts.filterMap (fun p => p.inline_data)).length)
    (hlast : (cand.content.parts.filterMap (fun p => p.inline_data)).getLast? = some lastB)
    (hre : re lastB = some png) :
    generate_image (some pid) backend re (some d)
      = (.ok { success := true, text := raw.text, image := some (b64encode png) }, true) := by
  simp [generate_image, hp, hb, hcand, processParts_last re _ _ lastB png hall hlast hre]

/-- Witness for C6: two inline parts [1] and [2] under an identity
re-encoder produce exactly the base64 of [2], namely "Ag==". -/
theorem c6_witness :
    generate_image (some "proj")
      (fun _ => .ok { text := some "t",
                      candidates := [⟨⟨[⟨some [1]⟩, ⟨none⟩, ⟨some [2]⟩]⟩⟩] })
      (fun b => some b) (some ⟨some "p"⟩)
      = (.ok { success := true, text := some "t", image := some "Ag==" }, true) :=
  c6_last_image_wins "proj"
    (fun _ => .ok { text := some "t",
                    candidates := [⟨⟨[⟨some [1]⟩, ⟨none⟩, ⟨some [2]⟩]⟩⟩] })
    (fun b => some b) ⟨some "p"⟩ "p"
    { text := some "t", candidates := [⟨⟨[⟨some [1]⟩, ⟨none⟩, ⟨some [2]⟩]⟩⟩] }
    ⟨⟨[⟨some [1]⟩, ⟨none⟩, ⟨some [2]⟩]⟩⟩ [] [2] [2]
    rfl rfl rfl (by decide) (by decide) rfl rfl

/-- C7.  A request with no JSON body, or one whose body lacks the prompt
field, receives HTTP 400 with an error message and the backend is never
called (the call-count observation stays `false`). -/
theorem c7_missing_prompt (pid : String)
    (backend : String → Except String ImageRawResponse)
    (re : List Nat → Option (List Nat)) :
    (generate_image (some pid) backend re none
      = (.clientError "プロンプトが必要です", false))
    ∧ (generate_image (some pid) backend re (some ⟨none⟩)
      = (.clientError "プロンプトが必要です", false)) :=
  ⟨rfl, rfl⟩

/-- C8.  If any inline part fails to decode or re-encode, the request ends
with HTTP 500 and an error body wrapping the image-processing message, unlike
the graceful JSON/text degradation of the text endpoint. -/
theorem c8_image_failure_500 (pid : String)
    (backend : String → Except String ImageRawResponse)
    (re : List Nat → Option (List Nat))
    (d : ImageRequestBody) (prompt : String) (raw : ImageRawResponse)
    (cand : ImageCandidate) (rest : List ImageCandidate)
    (hp : d.prompt = some prompt)
    (hb : backend prompt = .ok raw)
    (hcand : raw.candidates = cand :: rest)
    (hfail : ∃ b ∈ cand.content.parts.filterMap (fun p => p.inline_data), re b = none) :
    generate_image (some pid) backend re (some d)
      = (.serverError ("画像処理エラー: " ++ pilErrorText), true) := by
  simp [generate_image, hp, hb, hcand, processParts_fail re _ _ hfail]

/-- Witness for C8: a failing re-encoder on one inline part yields the 500
image-processing error. -/
theorem c8_witness :
    generate_image (some "proj")
      (fun _ => .ok { text := none, candidates := [⟨⟨[⟨some [7]⟩]⟩⟩] })
      (fun _ => none) (some ⟨some "p"⟩)
      = (.serverError ("画像処理エラー: " ++ pilErrorText), true) :=
  c8_image_failure_500 "proj"
    (fun _ => .ok { text := none, candidates := [⟨⟨[⟨some [7]⟩]⟩⟩] })
    (fun _ => none) ⟨some "p"⟩ "p"
    { text := none, candidates := [⟨⟨[⟨some [7]⟩]⟩⟩] }
    ⟨⟨[⟨some [7]⟩]⟩⟩ [] rfl rfl rfl ⟨[7], by decide, rfl⟩
